import Mathlib

/-!
Shallow embedding of the meteora-fee-router core in Lean 4.

The Rust sources embedded here are:
* `programs/meteora-fee-router/src/utils/math.rs` — fixed-point distribution
  math (`calculate_distribution`, `calculate_individual_payout`,
  `calculate_batch_payout`, `calculate_dust_payout`);
* `hackathon-submission/program/src/state/distribution_progress.rs` — the
  distribution progress ledger state machine;
* `programs/meteora-fee-router/src/utils/fee_claiming.rs` — the quote-only
  guard (`validate_quote_only_fees`).

Machine integers are modelled as `Nat` (for u16/u32/u64/u128) and `Int`
(for i64 timestamps).  Every `checked_*` operation of the source is
modelled by an `Option Nat` that is `none` exactly when the Rust checked
operation returns `None`; the `as u64` cast is modelled by `% 2 ^ 64`;
unchecked u32 `+` wraps modulo `2 ^ 32` and unchecked i64 `+`/`-` wrap
through `wrap_i64`.  Fallible functions return `Except ErrorCode _`.
-/

/-- MAX_BASIS_POINTS from constants.rs. -/
def MAX_BASIS_POINTS : Nat := 10000

/-- WEIGHT_PRECISION from constants.rs. -/
def WEIGHT_PRECISION : Nat := 1000000

/-- TWENTY_FOUR_HOURS (seconds) from constants.rs, an i64 in the source. -/
def TWENTY_FOUR_HOURS : Int := 86400

/-- Largest value of a Rust u64. -/
def U64_MAX : Nat := 2 ^ 64 - 1

/-- Number of values of a Rust u64 (modulus of the `as u64` cast). -/
def U64_SIZE : Nat := 2 ^ 64

/-- Largest value of a Rust u128. -/
def U128_MAX : Nat := 2 ^ 128 - 1

/-- Largest value of a Rust u32. -/
def U32_MAX : Nat := 2 ^ 32 - 1

/-- Number of values of a Rust u32 (modulus of wrapping u32 addition). -/
def U32_SIZE : Nat := 2 ^ 32

/-- Error codes from error.rs that the embedded functions use. -/
inductive ErrorCode where
  | InvalidQuoteMint
  | BaseFeeDetected
  | CooldownNotElapsed
  | DailyCapExceeded
  | InvalidPaginationCursor
  | ArithmeticOverflow
  | InvalidInvestorFeeShare
  | DayAlreadyComplete
  deriving DecidableEq, Repr

/-- Rust `u128::checked_mul`: `none` iff the product exceeds `u128::MAX`. -/
def checked_mul_u128 (a b : Nat) : Option Nat :=
  if a * b ≤ U128_MAX then some (a * b) else none

/-- Rust `u128::checked_div`: `none` iff the divisor is zero. -/
def checked_div_u128 (a b : Nat) : Option Nat :=
  if b = 0 then none else some (a / b)

/-- Rust `u128::checked_sub`: `none` iff the subtrahend is larger. -/
def checked_sub_u128 (a b : Nat) : Option Nat :=
  if b ≤ a then some (a - b) else none

/-- Rust `u64::checked_add`: `none` iff the sum exceeds `u64::MAX`. -/
def checked_add_u64 (a b : Nat) : Option Nat :=
  if a + b ≤ U64_MAX then some (a + b) else none

/-- Rust `u64::checked_sub`: `none` iff the subtrahend is larger. -/
def checked_sub_u64 (a b : Nat) : Option Nat :=
  if b ≤ a then some (a - b) else none

/-- Rust `u32::checked_add`: `none` iff the sum exceeds `u32::MAX`. -/
def checked_add_u32 (a b : Nat) : Option Nat :=
  if a + b ≤ U32_MAX then some (a + b) else none

/-- calculate_distribution from math.rs: split the claimed quote amount
between investors and creator.  Validates the share, short-circuits when
`y0_total == 0 || claimed_quote == 0`, otherwise computes
`f_locked = locked_total * 10000 / y0_total` (u128 checked),
`eligible = min(share_bps, f_locked)`,
`investor = claimed * eligible / 10000`, `creator = claimed - investor`,
and casts both back to u64. -/
def calculate_distribution (claimed_quote locked_total y0_total
    investor_fee_share_bps : Nat) : Except ErrorCode (Nat × Nat) :=
  if MAX_BASIS_POINTS < investor_fee_share_bps then
    .error .InvalidInvestorFeeShare
  else if y0_total = 0 ∨ claimed_quote = 0 then
    .ok (0, claimed_quote)
  else
    match checked_mul_u128 locked_total MAX_BASIS_POINTS with
    | none => .error .ArithmeticOverflow
    | some m =>
      match checked_div_u128 m y0_total with
      | none => .error .ArithmeticOverflow
      | some f_locked =>
        let eligible_share_bps := min investor_fee_share_bps f_locked
        match checked_mul_u128 claimed_quote eligible_share_bps with
        | none => .error .ArithmeticOverflow
        | some m2 =>
          match checked_div_u128 m2 MAX_BASIS_POINTS with
          | none => .error .ArithmeticOverflow
          | some investor_fee_quote =>
            match checked_sub_u128 claimed_quote investor_fee_quote with
            | none => .error .ArithmeticOverflow
            | some creator_fee_quote =>
              .ok (investor_fee_quote % U64_SIZE, creator_fee_quote % U64_SIZE)

/-- calculate_individual_payout from math.rs: raw payout is
`total * weight / WEIGHT_PRECISION` (u128 checked, cast to u64); below the
threshold the whole raw amount becomes dust. -/
def calculate_individual_payout (total_investor_amount investor_weight
    min_payout : Nat) : Except ErrorCode (Nat × Nat) :=
  match checked_mul_u128 total_investor_amount investor_weight with
  | none => .error .ArithmeticOverflow
  | some m =>
    match checked_div_u128 m WEIGHT_PRECISION with
    | none => .error .ArithmeticOverflow
    | some q =>
      let raw_payout := q % U64_SIZE
      if raw_payout < min_payout then .ok (0, raw_payout)
      else .ok (raw_payout, 0)

/-- The per-investor loop of calculate_batch_payout from math.rs:
accumulates `total_paid` and `loop_dust` with u64 checked additions. -/
def batch_fold (total_investor_amount min_payout : Nat) :
    List (Nat × Nat) → Nat → Nat → Except ErrorCode (Nat × Nat)
  | [], total_paid, loop_dust => .ok (total_paid, loop_dust)
  | inv :: rest, total_paid, loop_dust =>
    match calculate_individual_payout total_investor_amount inv.2 min_payout with
    | .error e => .error e
    | .ok (payout, dust) =>
      match checked_add_u64 total_paid payout with
      | none => .error .ArithmeticOverflow
      | some tp =>
        match checked_add_u64 loop_dust dust with
        | none => .error .ArithmeticOverflow
        | some ld => batch_fold total_investor_amount min_payout rest tp ld

/-- Tail of calculate_batch_payout from math.rs after the loop and the
overshoot adjustment: `remainder = total - adjusted_paid` (checked),
`unmatched = remainder.saturating_sub(loop_dust)`,
`total_dust = carry + loop_dust + unmatched` (both additions checked). -/
def batch_finish (total_investor_amount adjusted_paid loop_dust
    carry_over_dust : Nat) : Except ErrorCode (Nat × Nat) :=
  match checked_sub_u64 total_investor_amount adjusted_paid with
  | none => .error .ArithmeticOverflow
  | some remainder =>
    let unmatched_distribution := remainder - loop_dust
    match checked_add_u64 carry_over_dust loop_dust with
    | none => .error .ArithmeticOverflow
    | some s =>
      match checked_add_u64 s unmatched_distribution with
      | none => .error .ArithmeticOverflow
      | some total_dust => .ok (adjusted_paid, total_dust)

/-- calculate_batch_payout from math.rs.  Short-circuits to
`(0, total_investor_amount)` when `carry_over_dust >= u64::MAX / 2`;
otherwise sums the per-investor payouts, clamps an overshoot of
`total_paid` over `total_investor_amount` into `loop_dust`, and finishes
with `batch_finish`. -/
def calculate_batch_payout (investors : List (Nat × Nat))
    (total_investor_amount min_payout carry_over_dust : Nat) :
    Except ErrorCode (Nat × Nat) :=
  if U64_MAX / 2 ≤ carry_over_dust then .ok (0, total_investor_amount)
  else
    match batch_fold total_investor_amount min_payout investors 0 0 with
    | .error e => .error e
    | .ok (total_paid, loop_dust) =>
      if total_investor_amount < total_paid then
        match checked_add_u64 loop_dust (total_paid - total_investor_amount) with
        | none => .error .ArithmeticOverflow
        | some loop_dust2 =>
          batch_finish total_investor_amount total_investor_amount loop_dust2
            carry_over_dust
      else
        batch_finish total_investor_amount total_paid loop_dust carry_over_dust

lemma checked_mul_u128_eq {a b : Nat} (h : a * b ≤ U128_MAX) :
    checked_mul_u128 a b = some (a * b) := by
  simp [checked_mul_u128, h]

lemma checked_div_u128_eq {a b : Nat} (h : b ≠ 0) :
    checked_div_u128 a b = some (a / b) := by
  simp [checked_div_u128, h]

lemma checked_sub_u128_eq {a b : Nat} (h : b ≤ a) :
    checked_sub_u128 a b = some (a - b) := by
  simp [checked_sub_u128, h]

lemma checked_add_u64_eq {a b : Nat} (h : a + b ≤ U64_MAX) :
    checked_add_u64 a b = some (a + b) := by
  simp [checked_add_u64, h]

lemma checked_sub_u64_eq {a b : Nat} (h : b ≤ a) :
    checked_sub_u64 a b = some (a - b) := by
  simp [checked_sub_u64, h]

/-- The investor amount computed by calculate_distribution in its main
branch, as a plain arithmetic expression. -/
def split_investor_amt (claimed_quote locked_total y0_total
    investor_fee_share_bps : Nat) : Nat :=
  claimed_quote *
    min investor_fee_share_bps (locked_total * MAX_BASIS_POINTS / y0_total) /
    MAX_BASIS_POINTS

lemma split_investor_amt_le (c l a b : Nat) (hb : b ≤ MAX_BASIS_POINTS) :
    split_investor_amt c l a b ≤ c := by
  unfold split_investor_amt
  calc c * min b (l * MAX_BASIS_POINTS / a) / MAX_BASIS_POINTS
      ≤ c * MAX_BASIS_POINTS / MAX_BASIS_POINTS := by
        exact Nat.div_le_div_right
          (Nat.mul_le_mul_left c (le_trans (Nat.min_le_left _ _) hb))
    _ = c := Nat.mul_div_cancel c (by norm_num [MAX_BASIS_POINTS])

/-- In the main branch (share valid, allocation and claim nonzero) the
split evaluates to the floor-division formula and its complement. -/
lemma calculate_distribution_main (c l a b : Nat) (hc : c < U64_SIZE)
    (hl : l < U64_SIZE) (hb : b ≤ MAX_BASIS_POINTS) (ha : a ≠ 0)
    (hc0 : c ≠ 0) :
    calculate_distribution c l a b =
      .ok (split_investor_amt c l a b, c - split_investor_amt c l a b) := by
  have hbps : (0 : Nat) < MAX_BASIS_POINTS := by norm_num [MAX_BASIS_POINTS]
  have hlm : l * MAX_BASIS_POINTS ≤ U128_MAX := by
    have h1 : l * MAX_BASIS_POINTS ≤ (U64_SIZE - 1) * MAX_BASIS_POINTS :=
      Nat.mul_le_mul_right _ (by omega)
    refine h1.trans ?_
    norm_num [U64_SIZE, U128_MAX, MAX_BASIS_POINTS]
  have hel : min b (l * MAX_BASIS_POINTS / a) ≤ MAX_BASIS_POINTS :=
    le_trans (Nat.min_le_left _ _) hb
  have hcm : c * min b (l * MAX_BASIS_POINTS / a) ≤ U128_MAX := by
    have h1 : c * min b (l * MAX_BASIS_POINTS / a) ≤
        (U64_SIZE - 1) * MAX_BASIS_POINTS :=
      Nat.mul_le_mul (by omega) hel
    refine h1.trans ?_
    norm_num [U64_SIZE, U128_MAX, MAX_BASIS_POINTS]
  have hI : split_investor_amt c l a b ≤ c := split_investor_amt_le c l a b hb
  have hsub : c * min b (l * MAX_BASIS_POINTS / a) / MAX_BASIS_POINTS ≤ c := by
    simpa [split_investor_amt] using hI
  have hImod : split_investor_amt c l a b % U64_SIZE =
      split_investor_amt c l a b := Nat.mod_eq_of_lt (by omega)
  have hCmod : (c - split_investor_amt c l a b) % U64_SIZE =
      c - split_investor_amt c l a b := Nat.mod_eq_of_lt (by omega)
  rw [calculate_distribution, if_neg (Nat.not_lt.mpr hb),
    if_neg (by simp [ha, hc0])]
  simp only [checked_mul_u128_eq hlm, checked_div_u128_eq ha,
    checked_mul_u128_eq hcm, checked_div_u128_eq hbps.ne',
    checked_sub_u128_eq hsub]
  simp only [split_investor_amt] at hImod hCmod
  simp [split_investor_amt, hImod, hCmod]

/-- In the short-circuit branch (zero allocation or zero claim, share
valid) the split returns everything to the creator. -/
lemma calculate_distribution_zero (c l a b : Nat)
    (hb : b ≤ MAX_BASIS_POINTS) (h : a = 0 ∨ c = 0) :
    calculate_distribution c l a b = .ok (0, c) := by
  rw [calculate_distribution, if_neg (Nat.not_lt.mpr hb), if_pos h]

/-- Timing states from distribution_progress.rs. -/
inductive DistributionTimingState where
  | NewDay
  | ContinueSameDay
  deriving DecidableEq, Repr

/-- The DistributionProgress account from distribution_progress.rs.
`vault` (a Pubkey) and `bump` (u8) are opaque to the embedded logic and
modelled as `Nat`; `last_distribution_ts` is an i64 timestamp. -/
structure DistributionProgress where
  vault : Nat
  last_distribution_ts : Int
  current_day_distributed : Nat
  carry_over_dust : Nat
  pagination_cursor : Nat
  day_complete : Bool
  bump : Nat
  deriving DecidableEq, Repr

/-- Wrapping of a mathematical integer into the i64 range, the result of
Rust's unchecked i64 `+` and `-` without overflow checks (with
overflow-checks compiled in, an out-of-range result panics instead). -/
def wrap_i64 (x : Int) : Int := (x + 2 ^ 63) % 2 ^ 64 - 2 ^ 63

lemma wrap_i64_eq_of_bounds {x : Int} (h1 : -(2 ^ 63) ≤ x)
    (h2 : x < 2 ^ 63) : wrap_i64 x = x := by
  unfold wrap_i64
  omega

/-- can_start_new_day: 24 hours have passed since the last distribution.
The source computes `self.last_distribution_ts + TWENTY_FOUR_HOURS` with
the plain i64 `+`, so the sum wraps at the i64 boundary. -/
def can_start_new_day (p : DistributionProgress) (current_timestamp : Int) :
    Bool :=
  decide (wrap_i64 (p.last_distribution_ts + TWENTY_FOUR_HOURS) ≤
    current_timestamp)

/-- is_same_day: a distribution has run and less than 24 hours elapsed.
The source computes `current_timestamp - self.last_distribution_ts` with
the plain i64 `-`, so the difference wraps at the i64 boundary. -/
def is_same_day (p : DistributionProgress) (current_timestamp : Int) : Bool :=
  if p.last_distribution_ts = 0 then false
  else
    let time_diff := wrap_i64 (current_timestamp - p.last_distribution_ts)
    decide (0 ≤ time_diff ∧ time_diff < TWENTY_FOUR_HOURS)

/-- can_continue_same_day: same day and the day is not complete. -/
def can_continue_same_day (p : DistributionProgress)
    (current_timestamp : Int) : Bool :=
  is_same_day p current_timestamp && !p.day_complete

/-- validate_distribution_timing from distribution_progress.rs. -/
def validate_distribution_timing (p : DistributionProgress)
    (current_timestamp : Int) : Except ErrorCode DistributionTimingState :=
  if p.last_distribution_ts = 0 then .ok .NewDay
  else if can_start_new_day p current_timestamp then .ok .NewDay
  else if can_continue_same_day p current_timestamp then .ok .ContinueSameDay
  else if is_same_day p current_timestamp && p.day_complete then
    .error .DayAlreadyComplete
  else .error .CooldownNotElapsed

/-- start_new_day from distribution_progress.rs: requires
can_start_new_day, then resets the per-day fields (carry_over_dust is
kept).  The mutation is modelled by returning the updated record. -/
def start_new_day (p : DistributionProgress) (current_timestamp : Int) :
    Except ErrorCode DistributionProgress :=
  if can_start_new_day p current_timestamp then
    .ok { p with
      last_distribution_ts := current_timestamp
      current_day_distributed := 0
      pagination_cursor := 0
      day_complete := false }
  else .error .CooldownNotElapsed

/-- prepare_for_distribution from distribution_progress.rs: validate the
timing, start a new day on NewDay, mutate nothing on ContinueSameDay. -/
def prepare_for_distribution (p : DistributionProgress)
    (current_timestamp : Int) :
    Except ErrorCode (DistributionProgress × DistributionTimingState) :=
  match validate_distribution_timing p current_timestamp with
  | .error e => .error e
  | .ok .NewDay =>
    match start_new_day p current_timestamp with
    | .error e => .error e
    | .ok p2 => .ok (p2, .NewDay)
  | .ok .ContinueSameDay => .ok (p, .ContinueSameDay)

/-- validate_cursor_for_retry from distribution_progress.rs.  Takes the
ledger immutably (`&self` in the source), so it cannot modify it. -/
def validate_cursor_for_retry (p : DistributionProgress)
    (requested_cursor : Nat) : Except ErrorCode Bool :=
  if requested_cursor < p.pagination_cursor then .ok true
  else if requested_cursor = p.pagination_cursor then .ok false
  else .error .InvalidPaginationCursor

/-- advance_cursor from distribution_progress.rs: u32 checked addition,
failing ArithmeticOverflow rather than wrapping. -/
def advance_cursor (p : DistributionProgress) (page_size : Nat) :
    Except ErrorCode (DistributionProgress × Nat) :=
  match checked_add_u32 p.pagination_cursor page_size with
  | none => .error .ArithmeticOverflow
  | some new_cursor =>
    .ok ({ p with pagination_cursor := new_cursor }, new_cursor)

/-- mark_page_processed from distribution_progress.rs.  The source
computes `expected_cursor = page_start + page_size` with the plain u32
`+` operator (no `checked_add`); without `overflow-checks` that addition
wraps modulo `2 ^ 32`, modelled here by `% U32_SIZE`. -/
def mark_page_processed (p : DistributionProgress)
    (page_start page_size : Nat) : Except ErrorCode DistributionProgress :=
  let expected_cursor := (page_start + page_size) % U32_SIZE
  if page_start = p.pagination_cursor then
    .ok { p with pagination_cursor := expected_cursor }
  else .error .InvalidPaginationCursor

/-- The PositionFeeData struct from fee_claiming.rs; Pubkeys are modelled
as `Nat`. -/
structure PositionFeeData where
  fee_owed_a : Nat
  fee_owed_b : Nat
  token_mint_a : Nat
  token_mint_b : Nat
  deriving DecidableEq, Repr

/-- validate_quote_only_fees from fee_claiming.rs: orient the owed fees
by matching the quote mint against the two token mints, then fail
BaseFeeDetected iff any base fees are present. -/
def validate_quote_only_fees (fee_data : PositionFeeData) (quote_mint : Nat) :
    Except ErrorCode Unit :=
  match (if fee_data.token_mint_a = quote_mint then
      some (fee_data.fee_owed_a, fee_data.fee_owed_b)
    else if fee_data.token_mint_b = quote_mint then
      some (fee_data.fee_owed_b, fee_data.fee_owed_a)
    else none) with
  | none => .error .InvalidQuoteMint
  | some (_, base_fees) =>
    if 0 < base_fees then .error .BaseFeeDetected else .ok ()

/-- calculate_dust_payout from math.rs.  The source divides by
`min_payout` inside the `accumulated_dust >= min_payout` branch without a
zero guard; a Rust division by zero panics, modelled here as `none`. -/
def calculate_dust_payout (accumulated_dust min_payout : Nat) :
    Option (Nat × Nat) :=
  if min_payout ≤ accumulated_dust then
    if min_payout = 0 then none
    else
      let payout_multiples := accumulated_dust / min_payout
      let payout_amount := payout_multiples * min_payout
      some (payout_amount, accumulated_dust - payout_amount)
  else some (0, accumulated_dust)

/-! Claim theorems. -/

/-- C1: for every u64 `claimed`, `locked_total`, `total_alloc` and
`share_bps ≤ 10000`, `calculate_distribution` returns `(0, claimed)` when
`total_alloc == 0` or `claimed == 0`, otherwise returns
`investor = ⌊claimed * min(share_bps, ⌊locked*10000/alloc⌋) / 10000⌋` and
`creator = claimed - investor`; in every case the two components sum to
`claimed`. -/
theorem calculate_distribution_split_spec (c l a b : Nat)
    (hc : c < U64_SIZE) (hl : l < U64_SIZE) (hb : b ≤ MAX_BASIS_POINTS) :
    ((a = 0 ∨ c = 0) → calculate_distribution c l a b = .ok (0, c)) ∧
    (a ≠ 0 → c ≠ 0 →
      calculate_distribution c l a b =
        .ok (c * min b (l * 10000 / a) / 10000,
          c - c * min b (l * 10000 / a) / 10000)) ∧
    (∀ i r, calculate_distribution c l a b = .ok (i, r) → i + r = c) := by
  have hmax : MAX_BASIS_POINTS = 10000 := rfl
  refine ⟨fun h => calculate_distribution_zero c l a b hb h, ?_, ?_⟩
  · intro ha hc0
    have h := calculate_distribution_main c l a b hc hl hb ha hc0
    rw [h]
    simp [split_investor_amt, hmax]
  · intro i r h
    by_cases hzc : a = 0 ∨ c = 0
    · rw [calculate_distribution_zero c l a b hb hzc] at h
      simp only [Except.ok.injEq, Prod.mk.injEq] at h
      omega
    · push_neg at hzc
      rw [calculate_distribution_main c l a b hc hl hb hzc.1 hzc.2] at h
      simp only [Except.ok.injEq, Prod.mk.injEq] at h
      have hle := split_investor_amt_le c l a b hb
      omega

/-- Witness for C1 at the basic test vector (1000, 5000, 10000, 8000). -/
theorem calculate_distribution_split_spec_witness :
    calculate_distribution 1000 5000 10000 8000 = .ok (500, 500) := by
  have h := (calculate_distribution_split_spec 1000 5000 10000 8000
    (by norm_num [U64_SIZE]) (by norm_num [U64_SIZE])
    (by norm_num [MAX_BASIS_POINTS])).2.1 (by norm_num) (by norm_num)
  exact h.trans (by rfl)

/-- C8: with nonzero claim and allocation and a valid share, the investor
amount is monotone in the locked total, and once
`⌊locked*10000/alloc⌋ ≥ share_bps` it saturates at
`⌊claimed*share_bps/10000⌋`. -/
theorem calculate_distribution_monotone (c a b l1 l2 : Nat)
    (hc0 : c ≠ 0) (hc : c < U64_SIZE) (ha : a ≠ 0) (hl2 : l2 < U64_SIZE)
    (hb : b ≤ MAX_BASIS_POINTS) (h12 : l1 ≤ l2) :
    (∀ i1 r1 i2 r2,
      calculate_distribution c l1 a b = .ok (i1, r1) →
      calculate_distribution c l2 a b = .ok (i2, r2) → i1 ≤ i2) ∧
    (∀ l, l < U64_SIZE → b ≤ l * 10000 / a →
      calculate_distribution c l a b =
        .ok (c * b / 10000, c - c * b / 10000)) := by
  have hmax : MAX_BASIS_POINTS = 10000 := rfl
  constructor
  · intro i1 r1 i2 r2 h1 h2
    rw [calculate_distribution_main c l1 a b hc (lt_of_le_of_lt h12 hl2)
      hb ha hc0] at h1
    rw [calculate_distribution_main c l2 a b hc hl2 hb ha hc0] at h2
    simp only [Except.ok.injEq, Prod.mk.injEq] at h1 h2
    have hmono : split_investor_amt c l1 a b ≤ split_investor_amt c l2 a b := by
      unfold split_investor_amt
      exact Nat.div_le_div_right (Nat.mul_le_mul_left c
        (min_le_min (le_refl b)
          (Nat.div_le_div_right (Nat.mul_le_mul_right _ h12))))
    omega
  · intro l hls hsat
    rw [calculate_distribution_main c l a b hc hls hb ha hc0]
    simp [split_investor_amt, hmax, min_eq_left hsat]

/-- Witness for C8: saturation at locked = 9000 out of 10000 with an 80%
share gives exactly 80% to investors. -/
theorem calculate_distribution_monotone_witness :
    calculate_distribution 1000 9000 10000 8000 = .ok (800, 200) := by
  have h := (calculate_distribution_monotone 1000 10000 8000 2000 9000
    (by norm_num) (by norm_num [U64_SIZE]) (by norm_num)
    (by norm_num [U64_SIZE]) (by norm_num [MAX_BASIS_POINTS])
    (by norm_num)).2 9000 (by norm_num [U64_SIZE]) (by norm_num)
  exact h.trans (by rfl)

/-- C9: for u64 inputs, `calculate_distribution` never returns
`ArithmeticOverflow`: with a valid share it always succeeds, and with an
invalid share it fails with the share-validation error. -/
theorem calculate_distribution_no_overflow (c l a b : Nat)
    (hc : c < U64_SIZE) (hl : l < U64_SIZE) :
    (b ≤ MAX_BASIS_POINTS → ∃ p, calculate_distribution c l a b = .ok p) ∧
    (MAX_BASIS_POINTS < b →
      calculate_distribution c l a b = .error .InvalidInvestorFeeShare) := by
  constructor
  · intro hb
    by_cases hzc : a = 0 ∨ c = 0
    · exact ⟨(0, c), calculate_distribution_zero c l a b hb hzc⟩
    · push_neg at hzc
      exact ⟨_, calculate_distribution_main c l a b hc hl hb hzc.1 hzc.2⟩
  · intro hgt
    rw [calculate_distribution, if_pos hgt]

/-- Witness for C9 at the extreme u64 values of the overflow-protection
test, and at an invalid share of 10001. -/
theorem calculate_distribution_no_overflow_witness :
    (∃ p, calculate_distribution U64_MAX U64_MAX 1 10000 = .ok p) ∧
    calculate_distribution 1000 5000 10000 10001 =
      .error .InvalidInvestorFeeShare :=
  ⟨(calculate_distribution_no_overflow U64_MAX U64_MAX 1 10000
      (by norm_num [U64_MAX, U64_SIZE]) (by norm_num [U64_MAX, U64_SIZE])).1
      (by norm_num [MAX_BASIS_POINTS]),
   (calculate_distribution_no_overflow 1000 5000 10000 10001
      (by norm_num [U64_SIZE]) (by norm_num [U64_SIZE])).2
      (by norm_num [MAX_BASIS_POINTS])⟩

/-- C3 counterexample: on a never-run ledger (last_distribution_ts = 0),
prepare at timestamp 0 does not succeed — validate_distribution_timing
answers NewDay, but start_new_day re-checks can_start_new_day against the
zero epoch and fails CooldownNotElapsed for any timestamp below 86400. -/
theorem prepare_never_run_counterexample :
    prepare_for_distribution ⟨0, 0, 5, 3, 2, false, 0⟩ 0 =
      .error .CooldownNotElapsed := rfl

/-- C3 (amended): for every timestamp `now ≥ 86400`, prepare on a ledger
in the NeverRun state succeeds with NewDay and sets
`last_distribution_ts = now`, `current_day_distributed = 0`,
`pagination_cursor = 0` and `day_complete = false`. -/
theorem prepare_never_run_new_day (p : DistributionProgress) (now : Int)
    (h0 : p.last_distribution_ts = 0) (hnow : 86400 ≤ now) :
    prepare_for_distribution p now =
      .ok ({ p with last_distribution_ts := now,
                    current_day_distributed := 0, pagination_cursor := 0,
                    day_complete := false }, .NewDay) := by
  have hcs : can_start_new_day p now = true := by
    have hw : wrap_i64 (0 + TWENTY_FOUR_HOURS) = 86400 := by decide
    simp only [can_start_new_day, h0, hw, decide_eq_true_eq]
    omega
  rw [prepare_for_distribution, validate_distribution_timing, if_pos h0,
    start_new_day, if_pos hcs]

/-- Witness for C3 at the first allowed timestamp. -/
theorem prepare_never_run_new_day_witness :
    prepare_for_distribution ⟨0, 0, 5, 3, 2, false, 0⟩ 86400 =
      .ok (⟨0, 86400, 0, 3, 0, false, 0⟩, .NewDay) := by
  have h := prepare_never_run_new_day ⟨0, 0, 5, 3, 2, false, 0⟩ 86400 rfl
    (by norm_num)
  exact h.trans (by rfl)

/-- C4 counterexample: at `last_distribution_ts = now = i64::MAX` — an
in-range machine input satisfying `T ≤ now < T + 86400` mathematically —
the source's unchecked i64 addition `T + 86400` wraps to a negative
boundary, so `can_start_new_day` holds and prepare returns NewDay and
mutates the ledger (cursor 2 becomes 0), not the claimed ContinueSameDay
with no mutation. -/
theorem prepare_boundary_i64_counterexample :
    prepare_for_distribution ⟨0, 9223372036854775807, 5, 3, 2, false, 0⟩
        9223372036854775807 =
      .ok (⟨0, 9223372036854775807, 0, 3, 0, false, 0⟩, .NewDay) ∧
    DistributionTimingState.NewDay ≠ .ContinueSameDay := by
  exact ⟨rfl, by decide⟩

/-- C4 (amended): with `last_distribution_ts = T > 0`, the day not
complete, and `T + 86400` within the i64 range (so the day-boundary
addition does not overflow), prepare at any `T ≤ now < T + 86400` returns
ContinueSameDay and leaves the ledger unchanged, while prepare at exactly
`T + 86400` returns NewDay and resets the cursor (carry_over_dust
untouched in both cases). -/
theorem prepare_same_day_and_boundary (p : DistributionProgress) (now : Int)
    (hT : 0 < p.last_distribution_ts) (hdc : p.day_complete = false)
    (hbound : p.last_distribution_ts + 86400 ≤ 9223372036854775807) :
    (p.last_distribution_ts ≤ now → now < p.last_distribution_ts + 86400 →
      prepare_for_distribution p now = .ok (p, .ContinueSameDay)) ∧
    prepare_for_distribution p (p.last_distribution_ts + 86400) =
      .ok ({ p with last_distribution_ts := p.last_distribution_ts + 86400,
                    current_day_distributed := 0, pagination_cursor := 0,
                    day_complete := false }, .NewDay) := by
  have h0 : p.last_distribution_ts ≠ 0 := by omega
  have hwrap : wrap_i64 (p.last_distribution_ts + TWENTY_FOUR_HOURS) =
      p.last_distribution_ts + 86400 := by
    refine wrap_i64_eq_of_bounds ?_ ?_ <;>
      simp only [TWENTY_FOUR_HOURS] <;> omega
  constructor
  · intro hle hlt
    have hcs : can_start_new_day p now = false := by
      simp only [can_start_new_day, hwrap, decide_eq_false_iff_not]
      omega
    have hdiff : wrap_i64 (now - p.last_distribution_ts) =
        now - p.last_distribution_ts := by
      refine wrap_i64_eq_of_bounds ?_ ?_ <;> omega
    have hsd : is_same_day p now = true := by
      rw [is_same_day, if_neg h0]
      simp only [hdiff, TWENTY_FOUR_HOURS, decide_eq_true_eq]
      omega
    have hcc : can_continue_same_day p now = true := by
      simp [can_continue_same_day, hsd, hdc]
    rw [prepare_for_distribution, validate_distribution_timing, if_neg h0,
      if_neg (by simp [hcs]), if_pos hcc]
  · have hcs : can_start_new_day p (p.last_distribution_ts + 86400) = true := by
      simp only [can_start_new_day, hwrap, decide_eq_true_eq]
      omega
    rw [prepare_for_distribution, validate_distribution_timing, if_neg h0,
      if_pos hcs, start_new_day, if_pos hcs]

/-- Witness for C4 at the 24h-boundary test vector (T = 1000). -/
theorem prepare_same_day_and_boundary_witness :
    prepare_for_distribution ⟨0, 1000, 5, 3, 2, false, 0⟩ 87399 =
      .ok (⟨0, 1000, 5, 3, 2, false, 0⟩, .ContinueSameDay) ∧
    prepare_for_distribution ⟨0, 1000, 5, 3, 2, false, 0⟩ 87400 =
      .ok (⟨0, 87400, 0, 3, 0, false, 0⟩, .NewDay) := by
  have h := prepare_same_day_and_boundary ⟨0, 1000, 5, 3, 2, false, 0⟩ 87399
    (by norm_num) rfl (by norm_num)
  exact ⟨h.1 (by norm_num) (by norm_num), h.2.trans (by rfl)⟩

/-- C5: validate_cursor_for_retry answers `ok true` exactly below the
cursor, `ok false` exactly at the cursor, and fails
InvalidPaginationCursor exactly above it; the source takes `&self`, so
the ledger cannot be modified. -/
theorem validate_cursor_for_retry_trichotomy (p : DistributionProgress)
    (r : Nat) :
    (validate_cursor_for_retry p r = .ok true ↔ r < p.pagination_cursor) ∧
    (validate_cursor_for_retry p r = .ok false ↔ r = p.pagination_cursor) ∧
    (validate_cursor_for_retry p r = .error .InvalidPaginationCursor ↔
      p.pagination_cursor < r) := by
  unfold validate_cursor_for_retry
  split_ifs with h1 h2 <;> simp_all <;> omega

/-- C6 (code bug evidence): at cursor = u32::MAX, marking a page of size
1 does not fail ArithmeticOverflow as the claim requires — the source
computes `page_start + page_size` with the plain `+`, so the cursor wraps
to 0 (with overflow checks compiled in, the program would panic instead;
either way no ArithmeticOverflow error is returned). -/
theorem mark_page_processed_wraps_at_u32_max :
    mark_page_processed ⟨0, 0, 0, 0, 4294967295, false, 0⟩ 4294967295 1 =
      .ok ⟨0, 0, 0, 0, 0, false, 0⟩ := rfl

/-- C7: the quote-only guard fails BaseFeeDetected iff the base-side owed
fees are positive, whichever of the two token mints is the quote mint. -/
theorem validate_quote_only_fees_guard (q base qm other : Nat) :
    (validate_quote_only_fees ⟨q, base, qm, other⟩ qm =
      if 0 < base then .error .BaseFeeDetected else .ok ()) ∧
    (other ≠ qm →
      validate_quote_only_fees ⟨base, q, other, qm⟩ qm =
        if 0 < base then .error .BaseFeeDetected else .ok ()) := by
  constructor
  · simp [validate_quote_only_fees]
  · intro h
    simp [validate_quote_only_fees, h]

/-- Witness for C7: (1000, 1) fails BaseFeeDetected with the quote mint
on either side, and (1000, 0) passes. -/
theorem validate_quote_only_fees_guard_witness :
    validate_quote_only_fees ⟨1, 1000, 9, 7⟩ 7 = .error .BaseFeeDetected ∧
    validate_quote_only_fees ⟨1000, 0, 7, 9⟩ 7 = .ok () := by
  refine ⟨?_, ?_⟩
  · exact ((validate_quote_only_fees_guard 1000 1 7 9).2
      (by norm_num)).trans (by rfl)
  · exact ((validate_quote_only_fees_guard 1000 0 7 9).1).trans (by rfl)

/-- C10: for `min_payout > 0`, calculate_dust_payout is total and returns
`(⌊acc/min⌋*min, acc − pay)` with `pay + remaining = acc`; for
`min_payout = 0` the unguarded division is reached for every accumulated
amount (the `accumulated >= min_payout` test always holds), so the Rust
code panics — modelled as `none`. -/
theorem calculate_dust_payout_total_spec (acc minp : Nat) :
    (minp ≠ 0 →
      calculate_dust_payout acc minp =
        some (acc / minp * minp, acc - acc / minp * minp) ∧
      acc / minp * minp + (acc - acc / minp * minp) = acc) ∧
    (minp = 0 → calculate_dust_payout acc minp = none) := by
  constructor
  · intro h
    have hle : acc / minp * minp ≤ acc := Nat.div_mul_le_self acc minp
    refine ⟨?_, by omega⟩
    by_cases h1 : minp ≤ acc
    · rw [calculate_dust_payout, if_pos h1, if_neg h]
    · rw [calculate_dust_payout, if_neg h1]
      have hz : acc / minp = 0 := Nat.div_eq_of_lt (by omega)
      simp [hz]
  · intro h
    subst h
    simp [calculate_dust_payout]

/-- Witness for C10 at the dust-payout test vectors, including the
division-by-zero input. -/
theorem calculate_dust_payout_total_spec_witness :
    calculate_dust_payout 350 100 = some (300, 50) ∧
    calculate_dust_payout 7 0 = none := by
  refine ⟨?_, (calculate_dust_payout_total_spec 7 0).2 rfl⟩
  exact (((calculate_dust_payout_total_spec 350 100).1
    (by norm_num)).1).trans (by rfl)

/-! Lemmas about calculate_batch_payout. -/

lemma checked_add_u64_some {a b c : Nat} (h : checked_add_u64 a b = some c) :
    c = a + b ∧ a + b ≤ U64_MAX := by
  unfold checked_add_u64 at h
  split_ifs at h with hle
  exact ⟨(Option.some_inj.mp h).symm, hle⟩

lemma nat_div_add_div_le (a b c : Nat) : a / c + b / c ≤ (a + b) / c := by
  rcases Nat.eq_zero_or_pos c with h | h
  · simp [h]
  · rw [Nat.le_div_iff_mul_le h]
    have h1 : a / c * c ≤ a := Nat.div_mul_le_self a c
    have h2 : b / c * c ≤ b := Nat.div_mul_le_self b c
    calc (a / c + b / c) * c = a / c * c + b / c * c := Nat.add_mul _ _ _
      _ ≤ a + b := Nat.add_le_add h1 h2

/-- Sum of the raw (pre-threshold) payouts of a list of investors. -/
def rawsum (total : Nat) (inv : List (Nat × Nat)) : Nat :=
  (inv.map (fun x => total * x.2 / WEIGHT_PRECISION)).sum

lemma rawsum_le_mul_div (total : Nat) (inv : List (Nat × Nat)) :
    rawsum total inv ≤ total * (inv.map Prod.snd).sum / WEIGHT_PRECISION := by
  induction inv with
  | nil => simp [rawsum]
  | cons x tl ih =>
    have h := nat_div_add_div_le (total * x.2)
      (total * (tl.map Prod.snd).sum) WEIGHT_PRECISION
    simp only [rawsum, List.map_cons, List.sum_cons, Nat.mul_add] at *
    exact le_trans (Nat.add_le_add_left ih _) h

lemma rawsum_le_total (total : Nat) (inv : List (Nat × Nat))
    (hw : (inv.map Prod.snd).sum ≤ WEIGHT_PRECISION) :
    rawsum total inv ≤ total := by
  have hP : (0 : Nat) < WEIGHT_PRECISION := by norm_num [WEIGHT_PRECISION]
  refine (rawsum_le_mul_div total inv).trans ?_
  calc total * (inv.map Prod.snd).sum / WEIGHT_PRECISION
      ≤ total * WEIGHT_PRECISION / WEIGHT_PRECISION :=
        Nat.div_le_div_right (Nat.mul_le_mul_left _ hw)
    _ = total := Nat.mul_div_cancel total hP

/-- With a u64 total and a weight within precision, the individual payout
succeeds; below threshold the raw amount is all dust, otherwise all pay. -/
lemma calculate_individual_payout_eq (total w minp : Nat)
    (htot : total ≤ U64_MAX) (hw : w ≤ WEIGHT_PRECISION) :
    calculate_individual_payout total w minp =
      if total * w / WEIGHT_PRECISION < minp
      then .ok (0, total * w / WEIGHT_PRECISION)
      else .ok (total * w / WEIGHT_PRECISION, 0) := by
  have hP : (0 : Nat) < WEIGHT_PRECISION := by norm_num [WEIGHT_PRECISION]
  have hm : total * w ≤ U128_MAX := by
    calc total * w ≤ U64_MAX * WEIGHT_PRECISION := Nat.mul_le_mul htot hw
      _ ≤ U128_MAX := by norm_num [U64_MAX, U128_MAX, WEIGHT_PRECISION]
  have hraw : total * w / WEIGHT_PRECISION ≤ total := by
    calc total * w / WEIGHT_PRECISION
        ≤ total * WEIGHT_PRECISION / WEIGHT_PRECISION :=
          Nat.div_le_div_right (Nat.mul_le_mul_left _ hw)
      _ = total := Nat.mul_div_cancel total hP
  have hmod : total * w / WEIGHT_PRECISION % U64_SIZE =
      total * w / WEIGHT_PRECISION := by
    refine Nat.mod_eq_of_lt ?_
    have : U64_MAX < U64_SIZE := by norm_num [U64_MAX, U64_SIZE]
    omega
  simp only [calculate_individual_payout, checked_mul_u128_eq hm,
    checked_div_u128_eq hP.ne', hmod]

/-- Characterization of the batch loop when all weights are bounded and
the accumulated amounts cannot exceed the u64 total: it succeeds, and the
paid and dust accumulators together account for every raw payout. -/
lemma batch_fold_ok (total minp : Nat) (htot : total ≤ U64_MAX) :
    ∀ (inv : List (Nat × Nat)) (p0 d0 : Nat),
      (∀ x ∈ inv, x.2 ≤ WEIGHT_PRECISION) →
      p0 + d0 + rawsum total inv ≤ total →
      ∃ p d, batch_fold total minp inv p0 d0 = .ok (p, d) ∧
        p + d = p0 + d0 + rawsum total inv := by
  intro inv
  induction inv with
  | nil =>
    intro p0 d0 _ _
    exact ⟨p0, d0, rfl, by simp [rawsum]⟩
  | cons x tl ih =>
    intro p0 d0 hw hacc
    have hx : x.2 ≤ WEIGHT_PRECISION := hw x (List.mem_cons_self x tl)
    have hrsum : rawsum total (x :: tl) =
        total * x.2 / WEIGHT_PRECISION + rawsum total tl := by
      simp [rawsum]
    obtain ⟨pay, dust, hind, hpd⟩ :
        ∃ pay dust,
          calculate_individual_payout total x.2 minp = .ok (pay, dust) ∧
          pay + dust = total * x.2 / WEIGHT_PRECISION := by
      rw [calculate_individual_payout_eq total x.2 minp htot hx]
      by_cases hlt : total * x.2 / WEIGHT_PRECISION < minp
      · exact ⟨0, _, by rw [if_pos hlt], by omega⟩
      · exact ⟨_, 0, by rw [if_neg hlt], by omega⟩
    have hb1 : p0 + pay ≤ U64_MAX := by omega
    have hb2 : d0 + dust ≤ U64_MAX := by omega
    obtain ⟨p, d, heq, hsum⟩ := ih (p0 + pay) (d0 + dust)
      (fun y hy => hw y (List.mem_cons_of_mem _ hy)) (by omega)
    refine ⟨p, d, ?_, by omega⟩
    simp only [batch_fold, hind, checked_add_u64_eq hb1,
      checked_add_u64_eq hb2]
    exact heq

/-- C2 counterexample: a single investor whose weight 2,000,000 is twice
WEIGHT_PRECISION makes the loop overshoot; the clamp moves the overshoot
into dust, so the batch reports paid = 100 and dust = 100 out of a total
of only 100 — the claimed conservation equation fails. -/
theorem calculate_batch_payout_overshoot_counterexample :
    calculate_batch_payout [(0, 2000000)] 100 1 0 = .ok (100, 100) ∧
    ¬ (100 + (100 - 0) = 100) := by
  exact ⟨rfl, by norm_num⟩

/-- C2 (amended): when the investor weights sum to at most
WEIGHT_PRECISION (so the floor payouts cannot overshoot) and
carry_over_dust is below u64::MAX/2, every successful batch satisfies
`total_paid + (total_dust − carry_over_dust) = total_investor_amt`; and
whenever carry_over_dust ≥ u64::MAX/2 the batch returns
`(0, total_investor_amt)` without failing. -/
theorem calculate_batch_payout_conservation :
    (∀ (investors : List (Nat × Nat)) (total minp carry paid dust : Nat),
      total ≤ U64_MAX →
      (investors.map Prod.snd).sum ≤ WEIGHT_PRECISION →
      carry < U64_MAX / 2 →
      calculate_batch_payout investors total minp carry = .ok (paid, dust) →
      carry ≤ dust ∧ paid + (dust - carry) = total) ∧
    (∀ (investors : List (Nat × Nat)) (total minp carry : Nat),
      U64_MAX / 2 ≤ carry →
      calculate_batch_payout investors total minp carry = .ok (0, total)) := by
  constructor
  · intro inv total minp carry paid dust htot hw hcarry hres
    have hraws : rawsum total inv ≤ total := rawsum_le_total total inv hw
    obtain ⟨p, d, hfold, hsum⟩ := batch_fold_ok total minp htot inv 0 0
      (fun x hx => le_trans
        (List.single_le_sum (fun y _ => Nat.zero_le y) x.2
          (List.mem_map_of_mem Prod.snd hx)) hw)
      (by simpa using hraws)
    rw [calculate_batch_payout, if_neg (not_le.mpr hcarry)] at hres
    simp only [hfold] at hres
    have hple : p ≤ total := by omega
    rw [if_neg (not_lt.mpr hple)] at hres
    simp only [batch_finish, checked_sub_u64_eq hple] at hres
    cases hadd1 : checked_add_u64 carry d with
    | none => rw [hadd1] at hres; simp at hres
    | some s =>
      simp only [hadd1] at hres
      obtain ⟨hs, _⟩ := checked_add_u64_some hadd1
      cases hadd2 : checked_add_u64 s (total - p - d) with
      | none => rw [hadd2] at hres; simp at hres
      | some td =>
        simp only [hadd2] at hres
        obtain ⟨htd, _⟩ := checked_add_u64_some hadd2
        simp only [Except.ok.injEq, Prod.mk.injEq] at hres
        omega
  · intro inv total minp carry hcarry
    rw [calculate_batch_payout, if_pos hcarry]

/-- Witness for C2 at the four-investor batch test vector (paid 700, dust
25 + 50 + 250 = 325 of a 1000 total) and at a near-ceiling carry-over. -/
theorem calculate_batch_payout_conservation_witness :
    (25 ≤ 325 ∧ 700 + (325 - 25) = 1000) ∧
    calculate_batch_payout [] 5 1 9223372036854775807 = .ok (0, 5) := by
  constructor
  · exact calculate_batch_payout_conservation.1
      [(2500, 250000), (3000, 300000), (1500, 150000), (500, 50000)]
      1000 100 25 700 325 (by norm_num [U64_MAX])
      (by norm_num [WEIGHT_PRECISION]) (by norm_num [U64_MAX]) (by rfl)
  · exact calculate_batch_payout_conservation.2 [] 5 1 9223372036854775807
      (by norm_num [U64_MAX])
